import Mathlib

/-!
Verification of the ssrf-agent-guard core: a shallow embedding of the
host/IP validation engine (`src/lib/utils.ts`, `src/lib/types.ts`) and of
the connection-interception wrapper (`ssrfAgentGuard`, `handleBlock`,
`getErrorMessage`, the patched `createConnection` and its `lookup`
handler), together with theorems settling the specification claims.

JavaScript strings are embedded as Lean `String`; the JS string methods
that the source uses (`toLowerCase`, `split`, `startsWith`, `endsWith`,
`slice`) are given explicit executable models over the character list.
-/

namespace SsrfGuard

/-- Model of JS `String.prototype.toLowerCase` (ASCII case folding, which
covers every hostname this code base works with). -/
def jsToLower (s : String) : String :=
  String.mk (s.data.map Char.toLower)

/-- Model of JS `String.prototype.split` with a single-character separator,
working over the character list.  JS semantics: `''.split('.') = ['']`,
`'a.b.'.split('.') = ['a','b','']`. -/
def jsSplitList (sep : Char) : List Char → List (List Char)
  | [] => [[]]
  | c :: cs =>
    if c = sep then [] :: jsSplitList sep cs
    else
      match jsSplitList sep cs with
      | t :: ts => (c :: t) :: ts
      | [] => [[c]]

/-- Model of JS `String.prototype.split` on a `String`. -/
def jsSplit (s : String) (sep : Char) : List String :=
  (jsSplitList sep s.data).map String.mk

/-- Model of JS `String.prototype.startsWith`. -/
def jsStartsWith (s pre : String) : Bool :=
  pre.data.isPrefixOf s.data

/-- Model of JS `String.prototype.endsWith`. -/
def jsEndsWith (s suf : String) : Bool :=
  suf.data.isSuffixOf s.data

/-- Model of JS `String.prototype.slice(n)` for a nonnegative index. -/
def jsSlice (s : String) (n : Nat) : String :=
  String.mk (s.data.drop n)

/-!
Modelled from the spec: the external IP library (`ipaddr.js`) is not part
of this repository; the spec delegates to it for "IP-address parsing and
classification into address ranges such as loopback/private/link-local/
unicast" (spec section 1), with interface `parse/isValid/rangeClassification(ip)
-> string` (spec section 6) and the glossary definition "Unicast (public)
range: IP address classification excluding loopback, link-local, private,
multicast, and reserved ranges".  The model below parses canonical
dotted-decimal IPv4 literals and RFC-4291 hexadecimal IPv6 literals
(with `::` compression, without embedded IPv4 notation) and classifies them
into the library's named ranges, matching the spec's examples
(`127.0.0.1`, `10.0.0.1`, `192.168.1.1`, `169.254.1.1`, `::1`, `fe80::1`,
`fc00::1` not unicast; `8.8.8.8`, `1.1.1.1`, `2001:4860:4860::8888` unicast).
-/

/-- Modelled from the spec: one decimal octet of a dotted-quad IPv4 literal
(canonical decimal, value at most 255). -/
def parseDecOctet (l : List Char) : Option Nat :=
  if l = [] then none
  else if ¬ l.all Char.isDigit then none
  else if 1 < l.length ∧ l.headD '0' = '0' then none
  else
    let v := l.foldl (fun acc c => acc * 10 + (c.toNat - 48)) 0
    if v ≤ 255 then some v else none

/-- Modelled from the spec: parse a dotted-quad IPv4 literal. -/
def parseIPv4 (s : String) : Option (Nat × Nat × Nat × Nat) :=
  match (jsSplitList '.' s.data).mapM parseDecOctet with
  | some [a, b, c, d] => some (a, b, c, d)
  | _ => none

/-- Value of one hexadecimal digit, or `none`. -/
def hexDigitVal (c : Char) : Option Nat :=
  if c.isDigit then some (c.toNat - 48)
  else if 'a' ≤ c ∧ c ≤ 'f' then some (c.toNat - 87)
  else if 'A' ≤ c ∧ c ≤ 'F' then some (c.toNat - 55)
  else none

/-- Modelled from the spec: one 16-bit group of an IPv6 literal
(one to four hexadecimal digits). -/
def parseHexGroup (l : List Char) : Option Nat :=
  if 1 ≤ l.length ∧ l.length ≤ 4 then
    l.foldlM (fun acc c => (hexDigitVal c).map (fun v => acc * 16 + v)) 0
  else none

/-- Split a character list at the first occurrence of a double colon. -/
def findDoubleColon : List Char → Option (List Char × List Char)
  | [] => none
  | ':' :: ':' :: rest => some ([], rest)
  | c :: rest => (findDoubleColon rest).map (fun p => (c :: p.1, p.2))

/-- Modelled from the spec: parse an IPv6 literal into its eight 16-bit
groups, expanding at most one `::` compression. -/
def parseIPv6 (s : String) : Option (List Nat) :=
  let l := s.data
  match findDoubleColon l with
  | none =>
    match (jsSplitList ':' l).mapM parseHexGroup with
    | some gs => if gs.length = 8 then some gs else none
    | none => none
  | some (lft, rgt) =>
    if (findDoubleColon rgt).isSome then none
    else
      let lparts := if lft = [] then [] else jsSplitList ':' lft
      let rparts := if rgt = [] then [] else jsSplitList ':' rgt
      match lparts.mapM parseHexGroup, rparts.mapM parseHexGroup with
      | some ls, some rs =>
        if ls.length + rs.length ≤ 7 then
          some (ls ++ List.replicate (8 - ls.length - rs.length) 0 ++ rs)
        else none
      | _, _ => none

/-- A parsed IP address: dotted-quad IPv4 or eight-group IPv6. -/
inductive IpAddr where
  | v4 : Nat → Nat → Nat → Nat → IpAddr
  | v6 : List Nat → IpAddr
deriving DecidableEq

/-- Modelled from the spec: the IP library's IPv4 range classification
(loopback, link-local, private, multicast, reserved, ... versus unicast). -/
def rangeV4 (a b c d : Nat) : String :=
  if a = 0 then "unspecified"
  else if a = 255 ∧ b = 255 ∧ c = 255 ∧ d = 255 then "broadcast"
  else if 224 ≤ a ∧ a ≤ 239 then "multicast"
  else if a = 169 ∧ b = 254 then "linkLocal"
  else if a = 127 then "loopback"
  else if a = 100 ∧ 64 ≤ b ∧ b ≤ 127 then "carrierGradeNat"
  else if a = 10 ∨ (a = 172 ∧ 16 ≤ b ∧ b ≤ 31) ∨ (a = 192 ∧ b = 168) then "private"
  else if (a = 192 ∧ b = 0 ∧ c = 0) ∨ (a = 192 ∧ b = 0 ∧ c = 2) ∨ (a = 192 ∧ b = 88 ∧ c = 99)
       ∨ (a = 198 ∧ (b = 18 ∨ b = 19)) ∨ (a = 198 ∧ b = 51 ∧ c = 100)
       ∨ (a = 203 ∧ b = 0 ∧ c = 113) ∨ 240 ≤ a then "reserved"
  else "unicast"

/-- Modelled from the spec: the IP library's IPv6 range classification. -/
def rangeV6 (gs : List Nat) : String :=
  match gs with
  | [g0, g1, g2, g3, g4, g5, g6, g7] =>
    if g0 = 0 ∧ g1 = 0 ∧ g2 = 0 ∧ g3 = 0 ∧ g4 = 0 ∧ g5 = 0 ∧ g6 = 0 ∧ g7 = 0 then "unspecified"
    else if g0 = 0 ∧ g1 = 0 ∧ g2 = 0 ∧ g3 = 0 ∧ g4 = 0 ∧ g5 = 0 ∧ g6 = 0 ∧ g7 = 1 then "loopback"
    else if g0 / 64 = 1018 then "linkLocal"
    else if g0 / 256 = 255 then "multicast"
    else if g0 / 512 = 126 then "uniqueLocal"
    else if g0 = 8193 ∧ g1 = 3512 then "reserved"
    else "unicast"
  | _ => "unicast"

/-- Modelled from the spec: `ipaddr.parse`, returning `none` where the
library throws. -/
def ipaddrParse (s : String) : Option IpAddr :=
  match parseIPv4 s with
  | some (a, b, c, d) => some (IpAddr.v4 a b c d)
  | none =>
    match parseIPv6 s with
    | some gs => some (IpAddr.v6 gs)
    | none => none

/-- Modelled from the spec: `range()` on a parsed address. -/
def ipaddrRange : IpAddr → String
  | IpAddr.v4 a b c d => rangeV4 a b c d
  | IpAddr.v6 gs => rangeV6 gs

/-- Source `isIp` (`src/lib/utils.ts`): `ipaddr.isValid(input)`. -/
def isIp (input : String) : Bool :=
  (ipaddrParse input).isSome

/-- The IP library's range classification of a literal, as a string
(empty where the literal does not parse). -/
def ipRangeOf (ip : String) : String :=
  match ipaddrParse ip with
  | some addr => ipaddrRange addr
  | none => ""

/-- Source `isPublicIp` (`src/lib/utils.ts`):
`ipaddr.parse(ip).range() === 'unicast'`. -/
def isPublicIp (ip : String) : Bool :=
  ipRangeOf ip == "unicast"

example : isIp "127.0.0.1" = true := by decide
example : ipRangeOf "127.0.0.1" = "loopback" := by decide
example : ipRangeOf "10.0.0.1" = "private" := by decide
example : ipRangeOf "192.168.1.1" = "private" := by decide
example : ipRangeOf "169.254.1.1" = "linkLocal" := by decide
example : ipRangeOf "8.8.8.8" = "unicast" := by decide
example : ipRangeOf "1.1.1.1" = "unicast" := by decide
example : ipRangeOf "::1" = "loopback" := by decide
example : ipRangeOf "fe80::1" = "linkLocal" := by decide
example : ipRangeOf "fc00::1" = "uniqueLocal" := by decide
example : ipRangeOf "2001:4860:4860::8888" = "unicast" := by decide
example : isIp "example.com" = false := by decide
example : isIp "metadata.google.internal" = false := by decide
example : ipRangeOf "169.254.169.254" = "linkLocal" := by decide
example : ipRangeOf "168.63.129.16" = "unicast" := by decide

/-- Block reasons for SSRF detection (`src/lib/types.ts`). -/
inductive BlockReason where
  | private_ip
  | cloud_metadata
  | invalid_domain
  | dns_rebinding
  | denied_domain
  | denied_tld
  | not_allowed_domain
deriving DecidableEq

/-- The string a `BlockReason` interpolates to in JS template literals. -/
def reasonToString : BlockReason → String
  | BlockReason.private_ip => "private_ip"
  | BlockReason.cloud_metadata => "cloud_metadata"
  | BlockReason.invalid_domain => "invalid_domain"
  | BlockReason.dns_rebinding => "dns_rebinding"
  | BlockReason.denied_domain => "denied_domain"
  | BlockReason.denied_tld => "denied_tld"
  | BlockReason.not_allowed_domain => "not_allowed_domain"

/-- Operation mode (`src/lib/types.ts` `Options.mode`). -/
inductive Mode where
  | block
  | report
  | allow
deriving DecidableEq

/-- Policy options for domain-based filtering (`src/lib/types.ts`);
absent fields are `none`. -/
structure PolicyOptions where
  allowDomains : Option (List String)
  denyDomains : Option (List String)
  denyTLD : Option (List String)
deriving DecidableEq

/-- Main configuration options (`src/lib/types.ts`); absent fields are
`none`; the `logger` callback is modelled by its presence, with its
invocations recorded in the outcome structures below. -/
structure Options where
  protocol : Option String
  metadataHosts : Option (List String)
  mode : Option Mode
  policy : Option PolicyOptions
  blockCloudMetadata : Option Bool
  detectDnsRebinding : Option Bool
  logger : Bool
deriving DecidableEq

/-- Event data passed to the logger (`src/lib/types.ts` `BlockEvent`). -/
structure BlockEvent where
  url : String
  reason : BlockReason
  ip : Option String
  hostname : Option String
  timestamp : Nat
deriving DecidableEq

/-- Result of host validation (`src/lib/types.ts` `ValidationResult`). -/
structure ValidationResult where
  safe : Bool
  reason : Option BlockReason
deriving DecidableEq

/-- Default cloud metadata hosts to block (`src/lib/types.ts`
`CLOUD_METADATA_HOSTS`), with the source's entries in source order
(the JS `Set` deduplicates; list membership is the same). -/
def cloudMetadataHosts : List String :=
  ["169.254.169.254", "169.254.169.253",
   "metadata.google.internal", "metadata.goog",
   "169.254.169.254", "168.63.129.16",
   "169.254.170.2",
   "kubernetes.default", "kubernetes.default.svc", "kubernetes.default.svc.cluster.local",
   "169.254.169.254",
   "169.254.169.254",
   "100.100.100.200",
   "169.254.0.0"]

/-- Source `getTLD` (`src/lib/utils.ts`): lowercase, split on `.`, take the
last part (JS `parts[parts.length - 1]`; `split` never yields an empty
array, so the guard is always taken). -/
def getTLD (hostname : String) : String :=
  let parts := jsSplit (jsToLower hostname) '.'
  if parts.length > 0 then parts.getLastD "" else ""

/-- Source `matchesDomain` (`src/lib/utils.ts`): exact match, `*.`-wildcard
match, and implicit-subdomain match, case-insensitively. -/
def matchesDomain (hostname pattern : String) : Bool :=
  let normalizedHost := jsToLower hostname
  let normalizedPattern := jsToLower pattern
  if normalizedHost = normalizedPattern then true
  else if jsStartsWith normalizedPattern "*." then
    let baseDomain := jsSlice normalizedPattern 2
    jsEndsWith normalizedHost ("." ++ baseDomain) || normalizedHost = baseDomain
  else
    jsEndsWith normalizedHost ("." ++ normalizedPattern)

/-- Source `matchesAnyDomain` (`src/lib/utils.ts`). -/
def matchesAnyDomain (hostname : String) (domains : List String) : Bool :=
  domains.any (fun domain => matchesDomain hostname domain)

/-- Source `validatePolicy` (`src/lib/utils.ts`): allowlist first and
exclusively, then deny-domains, then deny-TLDs.  A JS check
`list && list.length > 0` is modelled as `list.getD [] ≠ []`. -/
def validatePolicy (hostname : String) (policy : Option PolicyOptions) : ValidationResult :=
  match policy with
  | none => ⟨true, none⟩
  | some p =>
    let allowDomains := p.allowDomains.getD []
    if allowDomains ≠ [] then
      if matchesAnyDomain hostname allowDomains then ⟨true, none⟩
      else ⟨false, some BlockReason.not_allowed_domain⟩
    else
      let denyDomains := p.denyDomains.getD []
      if denyDomains ≠ [] ∧ matchesAnyDomain hostname denyDomains then
        ⟨false, some BlockReason.denied_domain⟩
      else
        let denyTLD := p.denyTLD.getD []
        if denyTLD ≠ [] ∧ (denyTLD.map jsToLower).contains (getTLD hostname) then
          ⟨false, some BlockReason.denied_tld⟩
        else ⟨true, none⟩

/-- Source `isCloudMetadata` (`src/lib/utils.ts`): literal membership in
the static set, then in the caller-supplied custom hosts. -/
def isCloudMetadata (hostname : String) (customHosts : Option (List String)) : Bool :=
  if cloudMetadataHosts.contains hostname then true
  else if (customHosts.getD []).contains hostname then true
  else false

/-- Modelled from the spec: the external domain-syntax validator
(`is-valid-domain`, not part of this repository) invoked as
`isValidDomain(hostname, { allowUnicode: false, subdomain: true })`
(spec section 6): ASCII-only hostname of at most 253 characters, at least
two labels, each label 1..63 characters of letters, digits and hyphens
with no leading or trailing hyphen, and an alphabetic TLD of at least two
characters. -/
def isValidDomainCheck (hostname : String) : Bool :=
  let labels := jsSplitList '.' hostname.data
  decide (hostname.data.length ≤ 253) &&
  decide (2 ≤ labels.length) &&
  labels.all (fun l =>
    decide (1 ≤ l.length) && decide (l.length ≤ 63) &&
    l.all (fun c => c.isAlpha || c.isDigit || c == '-') &&
    !(l.headD '-' == '-') && !(l.getLastD '-' == '-')) &&
  (labels.getLastD []).all Char.isAlpha &&
  decide (2 ≤ (labels.getLastD []).length) &&
  hostname.data.all (fun c => c.toNat < 128)

/-- Source `validateHost` (`src/lib/utils.ts`): cloud-metadata check, then
policy for non-IP hostnames, then IP publicness, then domain syntax. -/
def validateHost (hostname : String) (options : Option Options) : ValidationResult :=
  let blockCloudMetadata := (options.bind Options.blockCloudMetadata) ≠ some false
  if blockCloudMetadata ∧ isCloudMetadata hostname (options.bind Options.metadataHosts) = true then
    ⟨false, some BlockReason.cloud_metadata⟩
  else
    let policyResult :=
      if isIp hostname = false then validatePolicy hostname (options.bind Options.policy)
      else ⟨true, none⟩
    if policyResult.safe = false then policyResult
    else if isIp hostname = true then
      if isPublicIp hostname = false then ⟨false, some BlockReason.private_ip⟩
      else ⟨true, none⟩
    else if isValidDomainCheck hostname = false then ⟨false, some BlockReason.invalid_domain⟩
    else ⟨true, none⟩

example : validateHost "10.0.0.1" none = ⟨false, some BlockReason.private_ip⟩ := by decide
example : validateHost "8.8.8.8" none = ⟨true, none⟩ := by decide
example : validateHost "169.254.169.254" none = ⟨false, some BlockReason.cloud_metadata⟩ := by decide
example : validateHost "example.com" none = ⟨true, none⟩ := by decide
example : validateHost "metadata.google.internal" none = ⟨false, some BlockReason.cloud_metadata⟩ := by decide
example : getTLD "example.LOCAL" = "local" := by decide
example : getTLD "example.local." = "" := by decide
example : matchesDomain "sub.example.com" "example.com" = true := by decide
example : matchesDomain "sub.example.com" "*.example.com" = true := by decide
example : matchesDomain "example.com" "*.example.com" = true := by decide
example : validatePolicy "example.com"
    (some ⟨some ["example.com"], some ["example.com"], none⟩) = ⟨true, none⟩ := by decide
example : validatePolicy "example.local."
    (some ⟨none, none, some ["local"]⟩) = ⟨true, none⟩ := by decide

/-- Logger level (first argument of the `logger` callback). -/
inductive LogLevel where
  | info
  | warn
  | error
deriving DecidableEq

/-- One invocation of the `logger` callback: level, message, `BlockEvent`. -/
structure LogEntry where
  level : LogLevel
  msg : String
  event : BlockEvent
deriving DecidableEq

/-- Source `createBlockEvent` (`src/index.ts` of the packaged module):
`Date.now()` is passed in as `now`. -/
def createBlockEvent (url : String) (reason : BlockReason)
    (ip hostname : Option String) (now : Nat) : BlockEvent :=
  ⟨url, reason, ip, hostname, now⟩

/-- JS `options?.mode || 'block'`. -/
def modeOf (options : Option Options) : Mode :=
  (options.bind Options.mode).getD Mode.block

/-- Presence of the `logger` callback, JS `options?.logger`. -/
def hasLoggerOf (options : Option Options) : Bool :=
  (options.map Options.logger).getD false

/-- Source `handleBlock`: returns whether to abort, together with the list
of logger invocations it performs (empty or a singleton). -/
def handleBlock (options : Option Options) (url : String) (reason : BlockReason)
    (ip hostname : Option String) (now : Nat) : Bool × List LogEntry :=
  let mode := modeOf options
  let event := createBlockEvent url reason ip hostname now
  let logs :=
    if hasLoggerOf options then
      if mode = Mode.block then
        [⟨LogLevel.error, "SSRF blocked: " ++ reasonToString reason, event⟩]
      else if mode = Mode.report then
        [⟨LogLevel.warn, "SSRF detected (report mode): " ++ reasonToString reason, event⟩]
      else []
    else []
  (decide (mode = Mode.block), logs)

/-- Source `getErrorMessage`: human-readable message keyed by reason. -/
def getErrorMessage (reason : BlockReason) (target : String) : String :=
  match reason with
  | BlockReason.private_ip => "Private IP address " ++ target ++ " is not allowed"
  | BlockReason.cloud_metadata => "Cloud metadata endpoint " ++ target ++ " is not allowed"
  | BlockReason.invalid_domain => "Invalid domain " ++ target
  | BlockReason.dns_rebinding => "DNS rebinding attack detected for " ++ target
  | BlockReason.denied_domain => "Domain " ++ target ++ " is denied by policy"
  | BlockReason.denied_tld => "TLD of " ++ target ++ " is denied by policy"
  | BlockReason.not_allowed_domain => "Domain " ++ target ++ " is not in the allowed list"

/-- Outcome of one call to the patched `createConnection`, up to the
synchronous return: the error thrown pre-DNS (if any), whether the
original `createConnection` was invoked, and the logger invocations. -/
structure ConnectOutcome where
  threw : Option String
  factoryInvoked : Bool
  logs : List LogEntry
deriving DecidableEq

/-- Source patched `createConnection`, pre-DNS phase: validate
`connectionOptions.host || ''`; on an unsafe result run `handleBlock` and,
if it says to block, throw `getErrorMessage` without calling the original
`createConnection`; otherwise delegate. -/
def patchedConnect (options : Option Options) (host : Option String) (now : Nat) :
    ConnectOutcome :=
  let hostname := host.getD ""
  let preCheckResult := validateHost hostname options
  match preCheckResult with
  | ⟨false, some r⟩ =>
    let hb := handleBlock options hostname r none (some hostname) now
    if hb.1 then ⟨some (getErrorMessage r hostname), false, hb.2⟩
    else ⟨none, true, hb.2⟩
  | _ => ⟨none, true, []⟩

/-- Outcome of the `lookup` event handler: the addresses `validateHost`
was invoked on, the reasons passed to `handleBlock`, the error the
connection was destroyed with (if any), and the logger invocations. -/
structure LookupOutcome where
  checked : List String
  blockReasons : List BlockReason
  destroyed : Option String
  logs : List LogEntry
deriving DecidableEq

/-- Source `lookup` handler loop over the resolved addresses: skip falsy
(empty) entries, validate each address, force the reason to
`dns_rebinding` on an unsafe result, and on an abort destroy the
connection with `getErrorMessage` and stop. -/
def lookupLoop (options : Option Options) (hostname : String) (now : Nat) :
    List String → LookupOutcome
  | [] => ⟨[], [], none, []⟩
  | ip :: rest =>
    if ip = "" then lookupLoop options hostname now rest
    else
      match validateHost ip options with
      | ⟨false, some _⟩ =>
        let hb := handleBlock options hostname BlockReason.dns_rebinding
          (some ip) (some hostname) now
        if hb.1 then
          ⟨[ip], [BlockReason.dns_rebinding],
           some (getErrorMessage BlockReason.dns_rebinding (hostname ++ " -> " ++ ip)), hb.2⟩
        else
          let restOutcome := lookupLoop options hostname now rest
          ⟨ip :: restOutcome.checked, BlockReason.dns_rebinding :: restOutcome.blockReasons,
           restOutcome.destroyed, hb.2 ++ restOutcome.logs⟩
      | _ =>
        let restOutcome := lookupLoop options hostname now rest
        ⟨ip :: restOutcome.checked, restOutcome.blockReasons,
         restOutcome.destroyed, restOutcome.logs⟩

/-- JS `Array.isArray(resolvedAddress) ? resolvedAddress : [resolvedAddress]`. -/
def toIpList : String ⊕ List String → List String
  | Sum.inl s => [s]
  | Sum.inr l => l

/-- Source `lookup` event handler: on a resolution error do nothing;
otherwise run the loop over the delivered address or address array. -/
def lookupEvent (options : Option Options) (hostname : String) (now : Nat)
    (err : Bool) (resolvedAddress : String ⊕ List String) : LookupOutcome :=
  if err then ⟨[], [], none, []⟩
  else lookupLoop options hostname now (toIpList resolvedAddress)

/-- A guarded agent as returned by the public entry point: the protocol
family it selected and whether its `createConnection` was patched. -/
structure GuardedAgent where
  https : Bool
  patched : Bool
deriving DecidableEq

/-- Source `createAgent`: `options?.protocol || url`, HTTPS iff it starts
with `"https"` (JS `||` falls back on the empty string). -/
def createAgentIsHttps (url : String) (options : Option Options) : Bool :=
  let protocol :=
    match options.bind Options.protocol with
    | some p => if p = "" then url else p
    | none => url
  jsStartsWith protocol "https"

/-- Source `ssrfAgentGuard`: create a fresh agent; if `options?.mode ===
'allow'` return it unpatched, otherwise patch its `createConnection`
(a fresh agent is never already marked in the `WeakMap`). -/
def ssrfAgentGuard (url : String) (options : Option Options) : GuardedAgent :=
  let finalAgent : GuardedAgent := ⟨createAgentIsHttps url options, false⟩
  if (options.bind Options.mode) = some Mode.allow then finalAgent
  else ⟨finalAgent.https, true⟩

/-- Behaviour of a connection initiated through the returned agent: the
patched path runs the pre-DNS check, the unpatched path is the original
`createConnection`, which throws nothing of the guard's, emits no logs and
is always invoked. -/
def agentConnect (a : GuardedAgent) (options : Option Options) (host : Option String)
    (now : Nat) : ConnectOutcome :=
  if a.patched then patchedConnect options host now
  else ⟨none, true, []⟩

/-- Behaviour of the resolution notification for a connection through the
returned agent: the handler is attached only on the patched path and only
when `options?.detectDnsRebinding !== false`. -/
def agentLookup (a : GuardedAgent) (options : Option Options) (hostname : String)
    (now : Nat) (err : Bool) (resolvedAddress : String ⊕ List String) : LookupOutcome :=
  if a.patched = true ∧ (options.bind Options.detectDnsRebinding) ≠ some false then
    lookupEvent options hostname now err resolvedAddress
  else ⟨[], [], none, []⟩

/-- Options value with every field absent and no logger. -/
def defaultOptions : Options := ⟨none, none, none, none, none, none, false⟩

example :
    patchedConnect (some defaultOptions) (some "10.0.0.1") 0 =
      ⟨some "Private IP address 10.0.0.1 is not allowed", false, []⟩ := by decide
example :
    (lookupEvent (some defaultOptions) "legitimate.com" 0 false
      (Sum.inr ["8.8.8.8", "127.0.0.1", "10.0.0.1"])) =
      ⟨["8.8.8.8", "127.0.0.1"], [BlockReason.dns_rebinding],
       some "DNS rebinding attack detected for legitimate.com -> 127.0.0.1", []⟩ := by decide
example :
    (ssrfAgentGuard "http://x" (some ⟨none, none, some Mode.allow, none, none, none, true⟩)).patched
      = false := by decide

/-- Claim C1, counterexample: `169.254.169.254` is an IPv4 literal whose
range classification is not `unicast`, yet `validateHost` with no options
returns reason `cloud_metadata`, not `private_ip`, because the
cloud-metadata check runs first — so the claimed equivalence fails at this
input. -/
theorem claim_C1_counterexample :
    isIp "169.254.169.254" = true
    ∧ ipRangeOf "169.254.169.254" ≠ "unicast"
    ∧ validateHost "169.254.169.254" none ≠ ⟨false, some BlockReason.private_ip⟩
    ∧ validateHost "169.254.169.254" none = ⟨false, some BlockReason.cloud_metadata⟩ := by
  decide

/-- Claim C1 (amended): for every IP literal that is not in the static
cloud-metadata host set, `validateHost` with no options returns
`{safe:false, reason:'private_ip'}` iff the IP library's range
classification of the literal is not `unicast`. -/
theorem claim_C1_amended : ∀ (ip : String),
    isIp ip = true → ip ∉ cloudMetadataHosts →
    (validateHost ip none = ⟨false, some BlockReason.private_ip⟩ ↔ ipRangeOf ip ≠ "unicast") := by
  intro ip hip hmem
  have hcm : isCloudMetadata ip none = false := by
    simp [isCloudMetadata, hmem]
  by_cases hpub : isPublicIp ip = true
  · have hrange : ipRangeOf ip = "unicast" := by
      simpa [isPublicIp] using hpub
    simp [validateHost, hcm, hip, hpub, hrange]
  · have hpub' : isPublicIp ip = false := by
      cases hb : isPublicIp ip
      · rfl
      · exact absurd hb hpub
    have hrange : ipRangeOf ip ≠ "unicast" := by
      intro hr
      exact hpub (by simp [isPublicIp, hr])
    simp [validateHost, hcm, hip, hpub', hrange]

/-- Claim C1, witness for the amended theorem at `127.0.0.1`. -/
theorem claim_C1_witness :
    (isIp "127.0.0.1" = true ∧ "127.0.0.1" ∉ cloudMetadataHosts)
    ∧ (validateHost "127.0.0.1" none = ⟨false, some BlockReason.private_ip⟩
        ↔ ipRangeOf "127.0.0.1" ≠ "unicast") :=
  ⟨⟨by decide, by decide⟩, claim_C1_amended "127.0.0.1" (by decide) (by decide)⟩

/-- Claim C3: with a non-empty `allowDomains` list, `validatePolicy`
returns safe iff the hostname matches some allow entry and
`not_allowed_domain` otherwise; the deny lists are never consulted, and in
particular `example.com` allowed and denied at once is safe. -/
theorem claim_C3 : ∀ (hostname : String) (p : PolicyOptions) (allow : List String),
    p.allowDomains = some allow → allow ≠ [] →
    (validatePolicy hostname (some p) =
       if matchesAnyDomain hostname allow then ⟨true, none⟩
       else ⟨false, some BlockReason.not_allowed_domain⟩)
    ∧ (∀ (d t : Option (List String)),
         validatePolicy hostname (some ⟨some allow, d, t⟩) =
           validatePolicy hostname (some ⟨some allow, none, none⟩))
    ∧ validatePolicy "example.com" (some ⟨some ["example.com"], some ["example.com"], none⟩)
        = ⟨true, none⟩ := by
  intro hostname p allow h1 h2
  refine ⟨?_, ?_, by decide⟩
  · simp [validatePolicy, h1, h2]
  · intro d t
    simp [validatePolicy, h2]

/-- Claim C3, witness at hostname `example.com` with
`allowDomains = ['example.com']` and `denyDomains = ['example.com']`. -/
theorem claim_C3_witness :
    (validatePolicy "example.com" (some ⟨some ["example.com"], some ["example.com"], none⟩) =
       if matchesAnyDomain "example.com" ["example.com"] then ⟨true, none⟩
       else ⟨false, some BlockReason.not_allowed_domain⟩) :=
  (claim_C3 "example.com" ⟨some ["example.com"], some ["example.com"], none⟩ ["example.com"]
    rfl (by decide)).1

/-- Helper: on an IP literal that did not hit the cloud-metadata branch,
`validateHost` is exactly the publicness check. -/
theorem validateHost_ip_eq (hostname : String) (opts : Options)
    (h1 : ¬ (opts.blockCloudMetadata ≠ some false
             ∧ isCloudMetadata hostname opts.metadataHosts = true))
    (h2 : isIp hostname = true) :
    validateHost hostname (some opts) =
      (if isPublicIp hostname = false then ⟨false, some BlockReason.private_ip⟩
       else ⟨true, none⟩) := by
  simp only [validateHost, Option.some_bind]
  rw [if_neg h1]
  simp [h2]

/-- Claim C4: `validateHost` checks in fixed order, first failure winning:
cloud metadata (unless disabled), then the policy evaluator for non-IP
hostnames with unsafe results returned unchanged, then for IP literals the
publicness check, whose result does not depend on the policy at all. -/
theorem claim_C4 : ∀ (hostname : String) (opts : Options),
    (opts.blockCloudMetadata ≠ some false →
      isCloudMetadata hostname opts.metadataHosts = true →
      validateHost hostname (some opts) = ⟨false, some BlockReason.cloud_metadata⟩)
    ∧ (¬ (opts.blockCloudMetadata ≠ some false
          ∧ isCloudMetadata hostname opts.metadataHosts = true) →
       isIp hostname = false →
       (validatePolicy hostname opts.policy).safe = false →
       validateHost hostname (some opts) = validatePolicy hostname opts.policy)
    ∧ (¬ (opts.blockCloudMetadata ≠ some false
          ∧ isCloudMetadata hostname opts.metadataHosts = true) →
       isIp hostname = true →
       (validateHost hostname (some opts) =
          (if isPublicIp hostname = false then ⟨false, some BlockReason.private_ip⟩
           else ⟨true, none⟩))
       ∧ (∀ (p : Option PolicyOptions),
            validateHost hostname
                (some ⟨opts.protocol, opts.metadataHosts, opts.mode, p,
                       opts.blockCloudMetadata, opts.detectDnsRebinding, opts.logger⟩)
              = validateHost hostname (some opts))) := by
  intro hostname opts
  refine ⟨?_, ?_, ?_⟩
  · intro h1 h2
    simp [validateHost, h1, h2]
  · intro h1 h2 h3
    simp only [validateHost, Option.some_bind]
    rw [if_neg h1]
    simp [h2, h3]
  · intro h1 h2
    refine ⟨validateHost_ip_eq hostname opts h1 h2, ?_⟩
    intro p
    rw [validateHost_ip_eq hostname opts h1 h2]
    exact validateHost_ip_eq hostname
      ⟨opts.protocol, opts.metadataHosts, opts.mode, p,
       opts.blockCloudMetadata, opts.detectDnsRebinding, opts.logger⟩ h1 h2

/-- Claim C4, witness: the three branches at concrete inputs —
`metadata.google.internal` with default options hits the metadata branch,
`foo.internal` with `denyTLD:['internal']` hits the policy branch, and
`10.0.0.1` hits the IP branch whatever the policy says. -/
theorem claim_C4_witness :
    (validateHost "metadata.google.internal" (some defaultOptions)
        = ⟨false, some BlockReason.cloud_metadata⟩)
    ∧ (validateHost "foo.internal"
          (some ⟨none, none, none, some ⟨none, none, some ["internal"]⟩, none, none, false⟩)
        = validatePolicy "foo.internal" (some ⟨none, none, some ["internal"]⟩))
    ∧ (validateHost "10.0.0.1" (some defaultOptions) =
        (if isPublicIp "10.0.0.1" = false then ⟨false, some BlockReason.private_ip⟩
         else ⟨true, none⟩))
    ∧ (validateHost "10.0.0.1"
          (some ⟨none, none, none, some ⟨some ["example.com"], none, none⟩, none, none, false⟩)
        = validateHost "10.0.0.1" (some defaultOptions)) :=
  ⟨(claim_C4 "metadata.google.internal" defaultOptions).1 (by decide) (by decide),
   (claim_C4 "foo.internal"
      ⟨none, none, none, some ⟨none, none, some ["internal"]⟩, none, none, false⟩).2.1
      (by decide) (by decide) (by decide),
   ((claim_C4 "10.0.0.1" defaultOptions).2.2 (by decide) (by decide)).1,
   ((claim_C4 "10.0.0.1" defaultOptions).2.2 (by decide) (by decide)).2
      (some ⟨some ["example.com"], none, none⟩)⟩

/-- Claim C5: when the pre-DNS validation fails and the mode is `block`,
the patched `createConnection` throws the reason-keyed message and never
invokes the original factory; the `private_ip` message is
`Private IP address {target} is not allowed`. -/
theorem claim_C5 : ∀ (opts : Option Options) (host : Option String) (now : Nat) (r : BlockReason),
    ((validateHost (host.getD "") opts).safe = false →
     (validateHost (host.getD "") opts).reason = some r →
     modeOf opts = Mode.block →
     (patchedConnect opts host now).threw = some (getErrorMessage r (host.getD ""))
     ∧ (patchedConnect opts host now).factoryInvoked = false)
    ∧ (∀ t, getErrorMessage BlockReason.private_ip t
        = "Private IP address " ++ t ++ " is not allowed") := by
  intro opts host now r
  constructor
  · intro h1 h2 h3
    have hv : validateHost (host.getD "") opts = ⟨false, some r⟩ := by
      rcases hvr : validateHost (host.getD "") opts with ⟨s, rr⟩
      rw [hvr] at h1 h2
      simp only at h1 h2
      rw [h1, h2]
    have hb1 : (handleBlock opts (host.getD "") r none (some (host.getD "")) now).1 = true := by
      simp [handleBlock, h3]
    simp [patchedConnect, hv, hb1]
  · intro t
    rfl

/-- Claim C5, witness at host `10.0.0.1` with default options. -/
theorem claim_C5_witness :
    ((patchedConnect (some defaultOptions) (some "10.0.0.1") 0).threw =
        some (getErrorMessage BlockReason.private_ip ((some "10.0.0.1").getD ""))
      ∧ (patchedConnect (some defaultOptions) (some "10.0.0.1") 0).factoryInvoked = false)
    ∧ getErrorMessage BlockReason.private_ip "10.0.0.1"
        = "Private IP address 10.0.0.1 is not allowed" :=
  ⟨(claim_C5 (some defaultOptions) (some "10.0.0.1") 0 BlockReason.private_ip).1
      (by decide) (by decide) (by decide),
   (claim_C5 (some defaultOptions) (some "10.0.0.1") 0 BlockReason.private_ip).2 "10.0.0.1"⟩

/-- Claim C6: `handleBlock` aborts exactly in block mode (block being the
default when the mode is unset), emits exactly one
`('error', 'SSRF blocked: <reason>', BlockEvent)` call in block mode and
exactly one `('warn', 'SSRF detected (report mode): <reason>', BlockEvent)`
call in report mode when a logger is configured, and emits nothing without
a logger while the abort decision is unchanged. -/
theorem claim_C6 : ∀ (opts : Option Options) (url : String) (reason : BlockReason)
    (ip hostname : Option String) (now : Nat),
    ((handleBlock opts url reason ip hostname now).1 = decide (modeOf opts = Mode.block))
    ∧ (modeOf opts = Mode.block →
        (handleBlock opts url reason ip hostname now).1 = true
        ∧ (hasLoggerOf opts = true →
            (handleBlock opts url reason ip hostname now).2 =
              [⟨LogLevel.error, "SSRF blocked: " ++ reasonToString reason,
                ⟨url, reason, ip, hostname, now⟩⟩]))
    ∧ (modeOf opts = Mode.report →
        (handleBlock opts url reason ip hostname now).1 = false
        ∧ (hasLoggerOf opts = true →
            (handleBlock opts url reason ip hostname now).2 =
              [⟨LogLevel.warn, "SSRF detected (report mode): " ++ reasonToString reason,
                ⟨url, reason, ip, hostname, now⟩⟩]))
    ∧ (hasLoggerOf opts = false → (handleBlock opts url reason ip hostname now).2 = []) := by
  intro opts url reason ip hostname now
  refine ⟨rfl, ?_, ?_, ?_⟩
  · intro hm
    refine ⟨by simp [handleBlock, hm], ?_⟩
    intro hl
    simp [handleBlock, createBlockEvent, hm, hl]
  · intro hm
    refine ⟨by simp [handleBlock, hm], ?_⟩
    intro hl
    simp [handleBlock, createBlockEvent, hm, hl]
  · intro hl
    simp [handleBlock, hl]

/-- Claim C6, witness: block mode with a logger, report mode with a
logger, and block mode without a logger, all at concrete arguments. -/
theorem claim_C6_witness :
    ((handleBlock (some ⟨none, none, some Mode.block, none, none, none, true⟩)
        "u" BlockReason.private_ip none none 7).1 = true
      ∧ (handleBlock (some ⟨none, none, some Mode.block, none, none, none, true⟩)
          "u" BlockReason.private_ip none none 7).2 =
          [⟨LogLevel.error, "SSRF blocked: " ++ reasonToString BlockReason.private_ip,
            ⟨"u", BlockReason.private_ip, none, none, 7⟩⟩])
    ∧ ((handleBlock (some ⟨none, none, some Mode.report, none, none, none, true⟩)
        "u" BlockReason.cloud_metadata none none 7).1 = false
      ∧ (handleBlock (some ⟨none, none, some Mode.report, none, none, none, true⟩)
          "u" BlockReason.cloud_metadata none none 7).2 =
          [⟨LogLevel.warn, "SSRF detected (report mode): " ++ reasonToString BlockReason.cloud_metadata,
            ⟨"u", BlockReason.cloud_metadata, none, none, 7⟩⟩])
    ∧ (handleBlock (some defaultOptions) "u" BlockReason.private_ip none none 7).2 = [] := by
  refine ⟨?_, ?_, ?_⟩
  · have h := (claim_C6 (some ⟨none, none, some Mode.block, none, none, none, true⟩)
      "u" BlockReason.private_ip none none 7).2.1 (by decide)
    exact ⟨h.1, h.2 (by decide)⟩
  · have h := (claim_C6 (some ⟨none, none, some Mode.report, none, none, none, true⟩)
      "u" BlockReason.cloud_metadata none none 7).2.2.1 (by decide)
    exact ⟨h.1, h.2 (by decide)⟩
  · exact (claim_C6 (some defaultOptions) "u" BlockReason.private_ip none none 7).2.2.2
      (by decide)

/-- Claim C7: `matchesDomain` is case-insensitive on both sides and holds
exactly for equality, a `*.`-wildcard matching the bare base or any
subdomain of it, or a plain pattern matching any proper subdomain; with
the three concrete instances from the spec. -/
theorem claim_C7 : ∀ (h p : String),
    (matchesDomain h p = true ↔
      (jsToLower h = jsToLower p
       ∨ (jsStartsWith (jsToLower p) "*." = true
           ∧ (jsToLower h = jsSlice (jsToLower p) 2
              ∨ jsEndsWith (jsToLower h) ("." ++ jsSlice (jsToLower p) 2) = true))
       ∨ (jsStartsWith (jsToLower p) "*." = false
           ∧ jsEndsWith (jsToLower h) ("." ++ jsToLower p) = true)))
    ∧ (∀ h2 p2, jsToLower h = jsToLower h2 → jsToLower p = jsToLower p2 →
         matchesDomain h p = matchesDomain h2 p2)
    ∧ matchesDomain "sub.example.com" "example.com" = true
    ∧ matchesDomain "sub.example.com" "*.example.com" = true
    ∧ matchesDomain "example.com" "*.example.com" = true := by
  intro h p
  refine ⟨?_, ?_, by decide, by decide, by decide⟩
  · simp only [matchesDomain]
    by_cases h1 : jsToLower h = jsToLower p
    · simp [h1]
    · simp only [if_neg h1]
      by_cases h2 : jsStartsWith (jsToLower p) "*."
      · simp only [if_pos h2, Bool.or_eq_true]
        constructor
        · rintro (he | he)
          · exact Or.inr (Or.inl ⟨h2, Or.inr he⟩)
          · exact Or.inr (Or.inl ⟨h2, Or.inl (by simpa using he)⟩)
        · rintro (he | ⟨_, (he | he)⟩ | ⟨hn, _⟩)
          · exact absurd he h1
          · exact Or.inr (by simpa using he)
          · exact Or.inl he
          · rw [h2] at hn
            exact absurd hn (by simp)
      · have h2f : jsStartsWith (jsToLower p) "*." = false := by
          cases hb : jsStartsWith (jsToLower p) "*."
          · rfl
          · exact absurd hb h2
        simp only [if_neg h2]
        constructor
        · intro he
          exact Or.inr (Or.inr ⟨h2f, he⟩)
        · rintro (he | ⟨hs, _⟩ | ⟨_, he⟩)
          · exact absurd he h1
          · rw [h2f] at hs
            exact absurd hs (by simp)
          · exact he
  · intro h2 p2 e1 e2
    simp only [matchesDomain, e1, e2]

/-- Claim C7, witness: the equivalence and the case-insensitivity at
concrete inputs `SUB.Example.COM` / `*.example.com`. -/
theorem claim_C7_witness :
    (matchesDomain "SUB.Example.COM" "*.example.com" = true ↔
      (jsToLower "SUB.Example.COM" = jsToLower "*.example.com"
       ∨ (jsStartsWith (jsToLower "*.example.com") "*." = true
           ∧ (jsToLower "SUB.Example.COM" = jsSlice (jsToLower "*.example.com") 2
              ∨ jsEndsWith (jsToLower "SUB.Example.COM")
                  ("." ++ jsSlice (jsToLower "*.example.com") 2) = true))
       ∨ (jsStartsWith (jsToLower "*.example.com") "*." = false
           ∧ jsEndsWith (jsToLower "SUB.Example.COM")
               ("." ++ jsToLower "*.example.com") = true)))
    ∧ matchesDomain "SUB.Example.COM" "*.example.com"
        = matchesDomain "sub.example.com" "*.EXAMPLE.com" :=
  ⟨(claim_C7 "SUB.Example.COM" "*.example.com").1,
   (claim_C7 "SUB.Example.COM" "*.example.com").2.1 "sub.example.com" "*.EXAMPLE.com"
     (by decide) (by decide)⟩

/-- Claim C8: with `mode:'allow'` the entry point returns the factory
unpatched, and every connection through it performs no validation, emits
no log, throws nothing of the guard's, and never destroys the connection
in the lookup phase, whatever the target and resolved addresses. -/
theorem claim_C8 : ∀ (url : String) (opts : Options) (host : Option String) (now : Nat)
    (hostname : String) (err : Bool) (resolvedAddress : String ⊕ List String),
    opts.mode = some Mode.allow →
    (ssrfAgentGuard url (some opts)).patched = false
    ∧ agentConnect (ssrfAgentGuard url (some opts)) (some opts) host now = ⟨none, true, []⟩
    ∧ agentLookup (ssrfAgentGuard url (some opts)) (some opts) hostname now err resolvedAddress
        = ⟨[], [], none, []⟩ := by
  intro url opts host now hostname err resolvedAddress hm
  have hp : (ssrfAgentGuard url (some opts)).patched = false := by
    simp [ssrfAgentGuard, hm]
  refine ⟨hp, ?_, ?_⟩
  · simp [agentConnect, hp]
  · simp [agentLookup, hp]

/-- Claim C8, witness: allow mode with a cloud-metadata target and a
loopback resolved address still does nothing. -/
theorem claim_C8_witness :
    (ssrfAgentGuard "http://x"
        (some ⟨none, none, some Mode.allow, none, none, none, true⟩)).patched = false
    ∧ agentConnect (ssrfAgentGuard "http://x"
        (some ⟨none, none, some Mode.allow, none, none, none, true⟩))
        (some ⟨none, none, some Mode.allow, none, none, none, true⟩)
        (some "169.254.169.254") 0 = ⟨none, true, []⟩
    ∧ agentLookup (ssrfAgentGuard "http://x"
        (some ⟨none, none, some Mode.allow, none, none, none, true⟩))
        (some ⟨none, none, some Mode.allow, none, none, none, true⟩)
        "x" 0 false (Sum.inl "127.0.0.1") = ⟨[], [], none, []⟩ :=
  claim_C8 "http://x" ⟨none, none, some Mode.allow, none, none, none, true⟩
    (some "169.254.169.254") 0 "x" false (Sum.inl "127.0.0.1") rfl

/-- Claim C9: cloud-metadata detection is literal, case-sensitive
membership: it holds exactly when the hostname is in the static list or in
the custom hosts, so `Metadata.Google.Internal` is not detected even
though the policy matcher elsewhere is case-insensitive. -/
theorem claim_C9 : ∀ (h : String) (custom : Option (List String)),
    (isCloudMetadata h custom = true ↔
      (h ∈ cloudMetadataHosts ∨ h ∈ custom.getD []))
    ∧ isCloudMetadata "Metadata.Google.Internal" none = false
    ∧ "metadata.google.internal" ∈ cloudMetadataHosts
    ∧ matchesDomain "Metadata.Google.Internal" "metadata.google.internal" = true := by
  intro h custom
  refine ⟨?_, by decide, by decide, by decide⟩
  simp [isCloudMetadata]

/-- Claim C9, witness: the membership equivalence evaluated at
`Metadata.Google.Internal` with custom hosts `['my.metadata']`. -/
theorem claim_C9_witness :
    isCloudMetadata "Metadata.Google.Internal" (some ["my.metadata"]) = true ↔
      ("Metadata.Google.Internal" ∈ cloudMetadataHosts
        ∨ "Metadata.Google.Internal" ∈ (some ["my.metadata"] : Option (List String)).getD []) :=
  (claim_C9 "Metadata.Google.Internal" (some ["my.metadata"])).1

/-- Helper: the JS split never produces an empty part list. -/
theorem jsSplitList_ne_nil (sep : Char) (l : List Char) : jsSplitList sep l ≠ [] := by
  induction l with
  | nil => simp [jsSplitList]
  | cons c cs ih =>
    by_cases hc : c = sep
    · simp [jsSplitList, hc]
    · simp only [jsSplitList, if_neg hc]
      rcases h : jsSplitList sep cs with _ | ⟨t, ts⟩ <;> simp

/-- Helper: splitting a list that ends with the separator yields the split
of the prefix followed by one empty part. -/
theorem jsSplitList_concat_sep (sep : Char) (l : List Char) :
    jsSplitList sep (l ++ [sep]) = jsSplitList sep l ++ [[]] := by
  induction l with
  | nil => simp [jsSplitList]
  | cons c cs ih =>
    by_cases hc : c = sep
    · simp only [List.cons_append, jsSplitList, if_pos hc]
      exact congrArg (List.cons []) ih
    · simp only [List.cons_append, jsSplitList, if_neg hc, List.append_eq]
      rw [ih]
      rcases h : jsSplitList sep cs with _ | ⟨t, ts⟩
      · exact absurd h (jsSplitList_ne_nil sep cs)
      · simp

/-- Helper: a hostname ending in a dot has an empty extracted TLD. -/
theorem getTLD_of_trailing_dot (h : String) (hend : jsEndsWith h "." = true) :
    getTLD h = "" := by
  have hsuf : ['.'] <:+ h.data := by
    have := hend
    simpa [jsEndsWith, List.isSuffixOf_iff_suffix] using this
  obtain ⟨l2, hl⟩ := hsuf
  have hdata : h.data = l2 ++ ['.'] := hl.symm
  have hlow : (jsToLower h).data = l2.map Char.toLower ++ ['.'] := by
    show (String.mk (h.data.map Char.toLower)).data = l2.map Char.toLower ++ ['.']
    rw [hdata]
    simp [List.map_append]
  simp only [getTLD, jsSplit, hlow, jsSplitList_concat_sep]
  simp

/-- Claim C10: for every hostname ending in a dot, the extracted TLD is
the empty string, so a `denyTLD` policy whose entries do not case-fold to
the empty string never blocks such a hostname; in particular
`validatePolicy('example.local.', {denyTLD:['local']})` is safe. -/
theorem claim_C10 : ∀ (h : String), jsEndsWith h "." = true →
    (getTLD h = ""
     ∧ (∀ (tlds : List String), (∀ t ∈ tlds, jsToLower t ≠ "") →
         validatePolicy h (some ⟨none, none, some tlds⟩) = ⟨true, none⟩)
     ∧ validatePolicy "example.local." (some ⟨none, none, some ["local"]⟩) = ⟨true, none⟩
     ∧ getTLD "example.local." = "") := by
  intro h hend
  have htld : getTLD h = "" := getTLD_of_trailing_dot h hend
  refine ⟨htld, ?_, by decide, by decide⟩
  intro tlds ht
  simp [validatePolicy]
  intro _ x hx
  rw [htld]
  exact ht x hx

/-- Claim C10, witness at `example.local.` with `denyTLD = ['local']`. -/
theorem claim_C10_witness :
    getTLD "example.local." = ""
    ∧ validatePolicy "example.local." (some ⟨none, none, some ["local"]⟩) = ⟨true, none⟩ :=
  ⟨(claim_C10 "example.local." (by decide)).1,
   (claim_C10 "example.local." (by decide)).2.1 ["local"] (by decide)⟩

/-- Helper: the abort decision of `handleBlock` is exactly "mode is
block", independently of the target and addresses. -/
theorem handleBlock_fst (opts : Option Options) (url : String) (reason : BlockReason)
    (ip hostname : Option String) (now : Nat) :
    (handleBlock opts url reason ip hostname now).1 = decide (modeOf opts = Mode.block) := rfl

/-- Helper: lookup loop on an empty (falsy) address entry skips it. -/
theorem lookupLoop_cons_empty (opts : Option Options) (h : String) (now : Nat)
    (rest : List String) :
    lookupLoop opts h now ("" :: rest) = lookupLoop opts h now rest := by
  simp [lookupLoop]

/-- Helper: lookup loop on a safe address records the check and recurses. -/
theorem lookupLoop_cons_safe (opts : Option Options) (h : String) (now : Nat)
    (ip : String) (rest : List String) (hip : ip ≠ "")
    (hsafe : (validateHost ip opts).safe = true ∨ (validateHost ip opts).reason = none) :
    lookupLoop opts h now (ip :: rest) =
      ⟨ip :: (lookupLoop opts h now rest).checked,
       (lookupLoop opts h now rest).blockReasons,
       (lookupLoop opts h now rest).destroyed,
       (lookupLoop opts h now rest).logs⟩ := by
  rcases hvv : validateHost ip opts with ⟨s, r⟩
  simp only [lookupLoop, if_neg hip]
  rw [hvv]
  cases s
  · rcases r with _ | r2
    · rfl
    · rw [hvv] at hsafe
      rcases hsafe with hsafe | hsafe <;> simp at hsafe
  · rfl

/-- Helper: lookup loop on an unsafe address in an aborting mode destroys
the connection and stops. -/
theorem lookupLoop_cons_unsafe_block (opts : Option Options) (h : String) (now : Nat)
    (ip : String) (rest : List String) (hip : ip ≠ "") (r2 : BlockReason)
    (hs : (validateHost ip opts).safe = false)
    (hr : (validateHost ip opts).reason = some r2)
    (hb : (handleBlock opts h BlockReason.dns_rebinding (some ip) (some h) now).1 = true) :
    lookupLoop opts h now (ip :: rest) =
      ⟨[ip], [BlockReason.dns_rebinding],
       some (getErrorMessage BlockReason.dns_rebinding (h ++ " -> " ++ ip)),
       (handleBlock opts h BlockReason.dns_rebinding (some ip) (some h) now).2⟩ := by
  have hvv : validateHost ip opts = ⟨false, some r2⟩ := by
    rcases hvr : validateHost ip opts with ⟨s, r⟩
    rw [hvr] at hs hr
    simp only at hs hr
    rw [hs, hr]
  simp only [lookupLoop, if_neg hip]
  rw [hvv]
  simp [hb]

/-- Helper: lookup loop on an unsafe address in a non-aborting mode records
the forced reason and continues. -/
theorem lookupLoop_cons_unsafe_noblock (opts : Option Options) (h : String) (now : Nat)
    (ip : String) (rest : List String) (hip : ip ≠ "") (r2 : BlockReason)
    (hs : (validateHost ip opts).safe = false)
    (hr : (validateHost ip opts).reason = some r2)
    (hb : (handleBlock opts h BlockReason.dns_rebinding (some ip) (some h) now).1 = false) :
    lookupLoop opts h now (ip :: rest) =
      ⟨ip :: (lookupLoop opts h now rest).checked,
       BlockReason.dns_rebinding :: (lookupLoop opts h now rest).blockReasons,
       (lookupLoop opts h now rest).destroyed,
       (handleBlock opts h BlockReason.dns_rebinding (some ip) (some h) now).2
         ++ (lookupLoop opts h now rest).logs⟩ := by
  have hvv : validateHost ip opts = ⟨false, some r2⟩ := by
    rcases hvr : validateHost ip opts with ⟨s, r⟩
    rw [hvr] at hs hr
    simp only at hs hr
    rw [hs, hr]
  simp only [lookupLoop, if_neg hip]
  rw [hvv]
  simp [hb]

/-- Helper: every reason the lookup loop hands to `handleBlock` is the
forced `dns_rebinding`. -/
theorem lookupLoop_blockReasons_eq (opts : Option Options) (h : String) (now : Nat) :
    ∀ (addrs : List String),
    ∀ r ∈ (lookupLoop opts h now addrs).blockReasons, r = BlockReason.dns_rebinding := by
  intro addrs
  induction addrs with
  | nil => intro r hr; simp [lookupLoop] at hr
  | cons ip rest ih =>
    intro r hr
    by_cases hip : ip = ""
    · rw [hip, lookupLoop_cons_empty] at hr
      exact ih r hr
    by_cases hsafe : (validateHost ip opts).safe = true ∨ (validateHost ip opts).reason = none
    · rw [lookupLoop_cons_safe opts h now ip rest hip hsafe] at hr
      exact ih r hr
    · push_neg at hsafe
      obtain ⟨hs, hr2⟩ := hsafe
      have hs' : (validateHost ip opts).safe = false := by
        cases hb2 : (validateHost ip opts).safe
        · rfl
        · exact absurd hb2 hs
      obtain ⟨r2, hr2'⟩ := Option.ne_none_iff_exists'.mp hr2
      by_cases hb : (handleBlock opts h BlockReason.dns_rebinding (some ip) (some h) now).1 = true
      · rw [lookupLoop_cons_unsafe_block opts h now ip rest hip r2 hs' hr2' hb] at hr
        simpa using hr
      · have hbf : (handleBlock opts h BlockReason.dns_rebinding (some ip) (some h) now).1 = false := by
          cases hb2 : (handleBlock opts h BlockReason.dns_rebinding (some ip) (some h) now).1
          · rfl
          · exact absurd hb2 hb
        rw [lookupLoop_cons_unsafe_noblock opts h now ip rest hip r2 hs' hr2' hbf] at hr
        simp only [List.mem_cons] at hr
        rcases hr with hr | hr
        · exact hr
        · exact ih r hr

/-- Helper: when the lookup loop destroyed nothing, it validated every
delivered (non-empty) address. -/
theorem lookupLoop_checked_of_none (opts : Option Options) (h : String) (now : Nat) :
    ∀ (addrs : List String), (∀ a ∈ addrs, a ≠ "") →
    (lookupLoop opts h now addrs).destroyed = none →
    (lookupLoop opts h now addrs).checked = addrs := by
  intro addrs
  induction addrs with
  | nil => intro _ _; rfl
  | cons ip rest ih =>
    intro hne hdes
    have hip : ip ≠ "" := hne ip (List.mem_cons_self ip rest)
    have hnerest : ∀ a ∈ rest, a ≠ "" := fun a ha => hne a (List.mem_cons_of_mem ip ha)
    by_cases hsafe : (validateHost ip opts).safe = true ∨ (validateHost ip opts).reason = none
    · rw [lookupLoop_cons_safe opts h now ip rest hip hsafe] at hdes ⊢
      simp only at hdes ⊢
      rw [ih hnerest hdes]
    · push_neg at hsafe
      obtain ⟨hs, hr2⟩ := hsafe
      have hs' : (validateHost ip opts).safe = false := by
        cases hb2 : (validateHost ip opts).safe
        · rfl
        · exact absurd hb2 hs
      obtain ⟨r2, hr2'⟩ := Option.ne_none_iff_exists'.mp hr2
      by_cases hb : (handleBlock opts h BlockReason.dns_rebinding (some ip) (some h) now).1 = true
      · rw [lookupLoop_cons_unsafe_block opts h now ip rest hip r2 hs' hr2' hb] at hdes
        simp at hdes
      · have hbf : (handleBlock opts h BlockReason.dns_rebinding (some ip) (some h) now).1 = false := by
          cases hb2 : (handleBlock opts h BlockReason.dns_rebinding (some ip) (some h) now).1
          · rfl
          · exact absurd hb2 hb
        rw [lookupLoop_cons_unsafe_noblock opts h now ip rest hip r2 hs' hr2' hbf] at hdes ⊢
        simp only at hdes ⊢
        rw [ih hnerest hdes]

/-- Helper: when the lookup loop destroyed the connection, the delivered
addresses decompose into safe ones, then the first unsafe one, at which the
checking stopped and the destroy error was produced. -/
theorem lookupLoop_destroyed_spec (opts : Option Options) (h : String) (now : Nat) :
    ∀ (addrs : List String), (∀ a ∈ addrs, a ≠ "") →
    ∀ msg, (lookupLoop opts h now addrs).destroyed = some msg →
    ∃ pre a rest, addrs = pre ++ a :: rest
      ∧ (lookupLoop opts h now addrs).checked = pre ++ [a]
      ∧ (∀ p ∈ pre, (validateHost p opts).safe = true ∨ (validateHost p opts).reason = none)
      ∧ (validateHost a opts).safe = false
      ∧ (handleBlock opts h BlockReason.dns_rebinding (some a) (some h) now).1 = true
      ∧ msg = getErrorMessage BlockReason.dns_rebinding (h ++ " -> " ++ a) := by
  intro addrs
  induction addrs with
  | nil => intro _ msg hmsg; simp [lookupLoop] at hmsg
  | cons ip rest ih =>
    intro hne msg hmsg
    have hip : ip ≠ "" := hne ip (List.mem_cons_self ip rest)
    have hnerest : ∀ a ∈ rest, a ≠ "" := fun a ha => hne a (List.mem_cons_of_mem ip ha)
    by_cases hsafe : (validateHost ip opts).safe = true ∨ (validateHost ip opts).reason = none
    · rw [lookupLoop_cons_safe opts h now ip rest hip hsafe] at hmsg ⊢
      simp only at hmsg ⊢
      obtain ⟨pre, a, rest2, heq, hch, hpre, hva, hb, hmsg2⟩ := ih hnerest msg hmsg
      refine ⟨ip :: pre, a, rest2, ?_, ?_, ?_, hva, hb, hmsg2⟩
      · rw [heq, List.cons_append]
      · simp only [hch, List.cons_append]
      · intro p hp
        rcases List.mem_cons.mp hp with hp | hp
        · rw [hp]; exact hsafe
        · exact hpre p hp
    · push_neg at hsafe
      obtain ⟨hs, hr2⟩ := hsafe
      have hs' : (validateHost ip opts).safe = false := by
        cases hb2 : (validateHost ip opts).safe
        · rfl
        · exact absurd hb2 hs
      obtain ⟨r2, hr2'⟩ := Option.ne_none_iff_exists'.mp hr2
      by_cases hb : (handleBlock opts h BlockReason.dns_rebinding (some ip) (some h) now).1 = true
      · rw [lookupLoop_cons_unsafe_block opts h now ip rest hip r2 hs' hr2' hb] at hmsg ⊢
        simp only at hmsg ⊢
        refine ⟨[], ip, rest, rfl, rfl, by simp, hs', hb, ?_⟩
        exact (Option.some_inj.mp hmsg).symm
      · have hbf : (handleBlock opts h BlockReason.dns_rebinding (some ip) (some h) now).1 = false := by
          cases hb2 : (handleBlock opts h BlockReason.dns_rebinding (some ip) (some h) now).1
          · rfl
          · exact absurd hb2 hb
        rw [lookupLoop_cons_unsafe_noblock opts h now ip rest hip r2 hs' hr2' hbf] at hmsg
        simp only at hmsg
        obtain ⟨pre, a, rest2, heq, hch, hpre, hva, hbA, hmsg2⟩ := ih hnerest msg hmsg
        rw [handleBlock_fst] at hbA hbf
        rw [hbA] at hbf
        exact absurd hbf (by simp)

/-- Claim C2: in the post-DNS phase, for a successful resolution
notification carrying one address or an array with no falsy entries:
every reason handed to the Mode/Action Resolver is the forced
`dns_rebinding`; if the connection was not destroyed, the Host Validator
was applied to every delivered address; and if it was destroyed, the
addresses decompose into safe ones followed by the first unsafe one, the
checks stopped exactly there, abort was signalled, and the connection was
destroyed with the rebinding error for that address. -/
theorem claim_C2 : ∀ (opts : Option Options) (hostname : String) (now : Nat)
    (resolvedAddress : String ⊕ List String),
    (∀ a ∈ toIpList resolvedAddress, a ≠ "") →
    ((∀ r ∈ (lookupEvent opts hostname now false resolvedAddress).blockReasons,
        r = BlockReason.dns_rebinding)
     ∧ ((lookupEvent opts hostname now false resolvedAddress).destroyed = none →
         (lookupEvent opts hostname now false resolvedAddress).checked
           = toIpList resolvedAddress)
     ∧ (∀ msg, (lookupEvent opts hostname now false resolvedAddress).destroyed = some msg →
         ∃ pre a rest, toIpList resolvedAddress = pre ++ a :: rest
           ∧ (lookupEvent opts hostname now false resolvedAddress).checked = pre ++ [a]
           ∧ (∀ p ∈ pre, (validateHost p opts).safe = true ∨ (validateHost p opts).reason = none)
           ∧ (validateHost a opts).safe = false
           ∧ (handleBlock opts hostname BlockReason.dns_rebinding (some a) (some hostname) now).1
               = true
           ∧ msg = getErrorMessage BlockReason.dns_rebinding (hostname ++ " -> " ++ a))) := by
  intro opts hostname now resolvedAddress hne
  have hev : lookupEvent opts hostname now false resolvedAddress
      = lookupLoop opts hostname now (toIpList resolvedAddress) := rfl
  rw [hev]
  exact ⟨lookupLoop_blockReasons_eq opts hostname now (toIpList resolvedAddress),
         lookupLoop_checked_of_none opts hostname now (toIpList resolvedAddress) hne,
         lookupLoop_destroyed_spec opts hostname now (toIpList resolvedAddress) hne⟩

/-- Claim C2, witness: default options (block mode), hostname
`legitimate.com`, resolution delivering the array
`['8.8.8.8', '127.0.0.1', '10.0.0.1']` — both the all-checked and the
destroyed conjuncts are exercised at this concrete input. -/
theorem claim_C2_witness :
    ((∀ r ∈ (lookupEvent (some defaultOptions) "legitimate.com" 0 false
        (Sum.inr ["8.8.8.8", "127.0.0.1", "10.0.0.1"])).blockReasons,
        r = BlockReason.dns_rebinding)
     ∧ ((lookupEvent (some defaultOptions) "legitimate.com" 0 false
          (Sum.inr ["8.8.8.8", "127.0.0.1", "10.0.0.1"])).destroyed = none →
         (lookupEvent (some defaultOptions) "legitimate.com" 0 false
          (Sum.inr ["8.8.8.8", "127.0.0.1", "10.0.0.1"])).checked
           = toIpList (Sum.inr ["8.8.8.8", "127.0.0.1", "10.0.0.1"]))
     ∧ (∀ msg, (lookupEvent (some defaultOptions) "legitimate.com" 0 false
          (Sum.inr ["8.8.8.8", "127.0.0.1", "10.0.0.1"])).destroyed = some msg →
         ∃ pre a rest,
           toIpList (Sum.inr ["8.8.8.8", "127.0.0.1", "10.0.0.1"]) = pre ++ a :: rest
           ∧ (lookupEvent (some defaultOptions) "legitimate.com" 0 false
               (Sum.inr ["8.8.8.8", "127.0.0.1", "10.0.0.1"])).checked = pre ++ [a]
           ∧ (∀ p ∈ pre, (validateHost p (some defaultOptions)).safe = true
                ∨ (validateHost p (some defaultOptions)).reason = none)
           ∧ (validateHost a (some defaultOptions)).safe = false
           ∧ (handleBlock (some defaultOptions) "legitimate.com" BlockReason.dns_rebinding
               (some a) (some "legitimate.com") 0).1 = true
           ∧ msg = getErrorMessage BlockReason.dns_rebinding ("legitimate.com" ++ " -> " ++ a))) :=
  claim_C2 (some defaultOptions) "legitimate.com" 0
    (Sum.inr ["8.8.8.8", "127.0.0.1", "10.0.0.1"]) (by decide)

end SsrfGuard
